import Mathlib

/-!
Verification model of the WRPF UK Referee Planner dashboard (`src/dash.py`).

The program loads a spreadsheet of referee-event rows into a pandas
DataFrame, normalizes the schema (migrating a legacy "Event Date" column
into the unified "Event Start" timestamp column and filling missing
canonical columns with empty strings), lets a password-gated user save an
edited table or append one new event, and renders the table into a PDF.

We embed the DataFrame shallowly as an ordered association list of named
columns together with an explicit row count; cell values are strings,
timestamps, or null (pandas NaN/NaT).  Date parsing (`pd.to_datetime`
with `errors="coerce"`) is an external library facility, so the model is
parameterized by an arbitrary parse function `String → Option Timestamp`;
`errors="coerce"` means a failed parse yields null rather than an error.
Persistent storage (`referees.xlsx`) is modelled as an `Option DF`:
`none` means the file does not exist.
-/

/-- A calendar timestamp (date plus time of day), the payload of a
`pd.Timestamp` cell. -/
structure Timestamp where
  year : Nat
  month : Nat
  day : Nat
  hour : Nat
  minute : Nat
deriving DecidableEq, Repr

/-- A calendar date, as returned by `st.date_input`. -/
structure PDate where
  year : Nat
  month : Nat
  day : Nat
deriving DecidableEq, Repr

/-- A time of day, as returned by `st.time_input`. -/
structure PTime where
  hour : Nat
  minute : Nat
deriving DecidableEq, Repr

/-- `datetime.combine(event_date, event_time)` from line 156 of
`src/dash.py`. -/
def datetime_combine (d : PDate) (t : PTime) : Timestamp :=
  ⟨d.year, d.month, d.day, t.hour, t.minute⟩

/-- A cell of the DataFrame: a string, a timestamp, or null
(pandas NaN/NaT). -/
inductive Value where
  | str : String → Value
  | ts : Timestamp → Value
  | null : Value
deriving DecidableEq, Repr

/-- A pandas DataFrame, modelled column-major: an ordered list of named
columns, each holding one value per row, plus the number of rows. -/
structure DF where
  nrows : Nat
  cols : List (String × List Value)
deriving DecidableEq, Repr

/-- Well-formedness: every column holds exactly `nrows` values. -/
def DF.WF (df : DF) : Prop :=
  ∀ p ∈ df.cols, p.2.length = df.nrows

instance (df : DF) : Decidable df.WF := by
  unfold DF.WF; infer_instance

/-- The ordered list of column names (`df.columns`). -/
def DF.colNames (df : DF) : List String :=
  df.cols.map Prod.fst

/-- `c in df.columns`. -/
def DF.hasCol (df : DF) (c : String) : Bool :=
  df.colNames.contains c

/-- `df[c]`: the values of column `c` (first match; `[]` if absent —
only used under a `hasCol` guard, mirroring pandas which raises on a
missing column). -/
def DF.getCol (df : DF) (c : String) : List Value :=
  match df.cols.find? (fun p => p.1 == c) with
  | some p => p.2
  | none => []

/-- `df[c] = vals`: replace column `c` in place if present, otherwise
append it as a new last column (pandas column assignment). -/
def DF.setCol (df : DF) (c : String) (vals : List Value) : DF :=
  if df.hasCol c then
    { nrows := df.nrows,
      cols := df.cols.map (fun p => if p.1 == c then (p.1, vals) else p) }
  else
    { nrows := df.nrows, cols := df.cols ++ [(c, vals)] }

/-- `df.drop(columns=[c])`. -/
def DF.dropCol (df : DF) (c : String) : DF :=
  { nrows := df.nrows, cols := df.cols.filter (fun p => !(p.1 == c)) }

/-- `df[cs]`: reindex to exactly the columns `cs`, in that order. -/
def DF.select (df : DF) (cs : List String) : DF :=
  { nrows := df.nrows, cols := cs.map (fun c => (c, df.getCol c)) }

/-- Row `i` of the DataFrame, as the list of the cells of each column. -/
def DF.row (df : DF) (i : Nat) : List Value :=
  df.cols.map (fun p => p.2.getD i Value.null)

/-- The ordered row sequence of the DataFrame (`df.itertuples`). -/
def DF.rows (df : DF) : List (List Value) :=
  (List.range df.nrows).map df.row

/-- `series.combine_first(other)` applied cell-wise: keep the value of
`self` where non-null, otherwise take the value of `other`. -/
def combine_first (a b : Value) : Value :=
  match a with
  | Value.null => b
  | v => v

/-- `pd.to_datetime(·, errors="coerce")` applied to one cell, for a given
external parse function: a timestamp stays itself, a string parses to a
timestamp or is coerced to null on failure, null stays null. -/
def to_datetime (parse : String → Option Timestamp) : Value → Value
  | Value.str s =>
      match parse s with
      | some t => Value.ts t
      | none => Value.null
  | Value.ts t => Value.ts t
  | Value.null => Value.null

/-- The canonical column set of lines 32–35 of `src/dash.py`. -/
def required_cols : List String :=
  ["Event Start", "Event Location", "Post Code", "Senior Referee",
   "Referee 2", "Referee 3", "Referee 4", "Referee 5", "Referee 6"]

/-- The empty DataFrame with the canonical columns (line 41). -/
def emptyDF : DF :=
  { nrows := 0, cols := required_cols.map (fun c => (c, [])) }

/-- One step of the loop on lines 36–38: add column `c` filled with empty
strings when absent. -/
def fillCol (df : DF) (c : String) : DF :=
  if df.hasCol c then df
  else df.setCol c (List.replicate df.nrows (Value.str ""))

/-- Lines 22–26: combine "Event Date" and "Event Start" if needed.  When
only the legacy column exists, parse it into a new "Event Start" column;
when both exist, back-fill null "Event Start" cells from "Event Date"
(`combine_first`) and coerce the result with `pd.to_datetime`. -/
def migrate (parse : String → Option Timestamp) (df0 : DF) : DF :=
  if !(df0.hasCol "Event Start") && df0.hasCol "Event Date" then
    df0.setCol "Event Start"
      ((df0.getCol "Event Date").map (to_datetime parse))
  else if df0.hasCol "Event Start" && df0.hasCol "Event Date" then
    df0.setCol "Event Start"
      (((df0.getCol "Event Start").zip (df0.getCol "Event Date")).map
        (fun p => to_datetime parse (combine_first p.1 p.2)))
  else df0

/-- Lines 28–29: drop the legacy "Event Date" column when present. -/
def dropLegacy (df1 : DF) : DF :=
  if df1.hasCol "Event Date" then df1.dropCol "Event Date" else df1

/-- Lines 36–38: ensure all required columns exist, filling absent ones
with empty strings. -/
def fillRequired (df2 : DF) : DF :=
  required_cols.foldl fillCol df2

/-- `load_data` (lines 18–44): `file = none` models a missing
`referees.xlsx`; otherwise migrate the legacy "Event Date" column into
"Event Start", drop it, synthesize missing canonical columns as empty
strings, and reindex to the canonical column order (line 39). -/
def load_data (parse : String → Option Timestamp) (file : Option DF) : DF :=
  match file with
  | none => emptyDF
  | some df0 => (fillRequired (dropLegacy (migrate parse df0))).select required_cols

/-- `save_data` (lines 46–47): overwrite the storage file in full with the
given table; the result is the new storage state. -/
def save_data (df : DF) : Option DF :=
  some df

/-- Zero-pad a number to two digits (strftime `%d`, `%m`, `%H`, `%M`). -/
def pad2 (n : Nat) : String :=
  if n < 10 then "0" ++ toString n else toString n

/-- Zero-pad a number to four digits (strftime `%Y`). -/
def pad4 (n : Nat) : String :=
  if n < 10 then "000" ++ toString n
  else if n < 100 then "00" ++ toString n
  else if n < 1000 then "0" ++ toString n
  else toString n

/-- Lines 62–66: a timestamp cell renders with
`strftime("%d/%m/%Y %H:%M")`; any other cell renders as `str(cell)` when
non-null and as the empty string when null. -/
def format_cell : Value → String
  | Value.ts t =>
      pad2 t.day ++ "/" ++ pad2 t.month ++ "/" ++ pad4 t.year ++ " " ++
      pad2 t.hour ++ ":" ++ pad2 t.minute
  | Value.str s => s
  | Value.null => ""

/-- The document content produced by `generate_pdf`: the title paragraph
and the table data (header row plus formatted record rows).  Page
geometry, column widths and table styling are layout-library concerns
carrying no record data. -/
structure PdfDoc where
  title : String
  table_data : List (List String)
deriving DecidableEq, Repr

/-- `generate_pdf` (lines 49–87): the table data is the column-name header
row followed by one formatted row per record. -/
def generate_pdf (df : DF) : PdfDoc :=
  { title := "WRPF UK Referee Planner",
    table_data := df.colNames :: df.rows.map (fun r => r.map format_cell) }

/-- The mutable state the button handlers touch: the persisted storage
file and the session table (`st.session_state.data`). -/
structure AppState where
  storage : Option DF
  session : DF
deriving DecidableEq, Repr

/-- The "Save Changes" handler (lines 130–136): write the edited table to
storage and promote it to the session state only when the supplied
password equals the configured secret; otherwise leave everything
unchanged.  The boolean reports whether the save happened (success
message vs. "Incorrect password"). -/
def saveChanges (secret password : String) (edited : DF) (s : AppState) :
    AppState × Bool :=
  if password == secret then
    ({ storage := save_data edited, session := edited }, true)
  else (s, false)

/-- The value a dict-row supplies for column `c` (null when the dict has
no such key, mirroring pandas alignment by column name). -/
def rowLookup (row : List (String × Value)) (c : String) : Value :=
  match row.find? (fun q => q.1 == c) with
  | some q => q.2
  | none => Value.null

/-- `pd.concat([df, pd.DataFrame([row])], ignore_index=True)` for a single
dict row: columns of `df` keep their order and get the row's value for
their name (null when the dict lacks it); dict keys absent from `df` are
appended as new columns, null-padded for the existing rows. -/
def concatRow (df : DF) (row : List (String × Value)) : DF :=
  { nrows := df.nrows + 1,
    cols :=
      df.cols.map (fun p => (p.1, p.2 ++ [rowLookup row p.1]))
      ++ (row.filter (fun q => !(df.colNames.contains q.1))).map
          (fun q => (q.1, List.replicate df.nrows Value.null ++ [q.2])) }

/-- The `new_row` dict built on lines 157–167 from the add-event form
inputs. -/
def new_row (event_date : PDate) (event_time : PTime)
    (event_location post_code senior_ref referee_2 referee_3 referee_4
     referee_5 referee_6 : String) : List (String × Value) :=
  [("Event Start", Value.ts (datetime_combine event_date event_time)),
   ("Event Location", Value.str event_location),
   ("Post Code", Value.str post_code),
   ("Senior Referee", Value.str senior_ref),
   ("Referee 2", Value.str referee_2),
   ("Referee 3", Value.str referee_3),
   ("Referee 4", Value.str referee_4),
   ("Referee 5", Value.str referee_5),
   ("Referee 6", Value.str referee_6)]

/-- The add-event form handler (lines 141–172): the form is only reachable
when the supplied password equals the secret; on submit it appends the new
row to the edited table, saves, and promotes the result to the session
state.  With a wrong password nothing changes.  The boolean reports
whether the event was added. -/
def addEvent (secret password : String) (event_date : PDate)
    (event_time : PTime)
    (event_location post_code senior_ref referee_2 referee_3 referee_4
     referee_5 referee_6 : String) (edited : DF) (s : AppState) :
    AppState × Bool :=
  if password == secret then
    let updated := concatRow edited
      (new_row event_date event_time event_location post_code senior_ref
        referee_2 referee_3 referee_4 referee_5 referee_6)
    ({ storage := save_data updated, session := updated }, true)
  else (s, false)

/-- A sample external parse function for concrete witnesses: recognizes
one ISO date. -/
def sampleParse : String → Option Timestamp :=
  fun s => if s = "2024-03-01" then some ⟨2024, 3, 1, 0, 0⟩ else none

/-- The legacy-schema table of the specification's §8 example. -/
def sampleLegacyDF : DF :=
  { nrows := 1,
    cols := [("Event Date", [Value.str "2024-03-01"]),
             ("Event Location", [Value.str "Leeds"]),
             ("Post Code", [Value.str "LS1 1AA"]),
             ("Senior Referee", [Value.str "J. Smith"])] }

/-- A table carrying both the unified and the legacy date column. -/
def sampleBothDF : DF :=
  { nrows := 3,
    cols := [("Event Start",
              [Value.null, Value.ts ⟨2025, 1, 2, 10, 0⟩, Value.str "bad"]),
             ("Event Date",
              [Value.str "2024-03-01", Value.str "zz", Value.null])] }

/-- A table already in the unified-timestamp schema. -/
def sampleUnifiedDF : DF :=
  { nrows := 1, cols := [("Event Start", [Value.str "x"])] }

/-!  Helper lemmas about the DataFrame operations. -/

theorem DF.hasCol_true_iff (df : DF) (c : String) :
    df.hasCol c = true ↔ ∃ p ∈ df.cols, p.1 = c := by
  simp only [DF.hasCol, DF.colNames, List.contains_iff_exists_mem_beq,
    List.mem_map, beq_iff_eq]
  constructor
  · rintro ⟨x, ⟨p, hp, rfl⟩, h⟩; exact ⟨p, hp, h.symm⟩
  · rintro ⟨p, hp, h⟩; exact ⟨p.1, ⟨p, hp, rfl⟩, h.symm⟩

theorem DF.hasCol_false_iff (df : DF) (c : String) :
    df.hasCol c = false ↔ ∀ p ∈ df.cols, p.1 ≠ c := by
  rw [← Bool.not_eq_true, DF.hasCol_true_iff]
  push_neg
  rfl

theorem DF.find?_of_hasCol {df : DF} {c : String} (h : df.hasCol c = true) :
    ∃ vs, df.cols.find? (fun p => p.1 == c) = some (c, vs) := by
  obtain ⟨p, hp, hpc⟩ := (DF.hasCol_true_iff df c).mp h
  have hsome : (df.cols.find? (fun p => p.1 == c)).isSome := by
    rw [List.find?_isSome]
    exact ⟨p, hp, by simp [hpc]⟩
  obtain ⟨q, hq⟩ := Option.isSome_iff_exists.mp hsome
  have hqc : q.1 = c := by simpa using List.find?_some hq
  exact ⟨q.2, by rw [hq, ← hqc]⟩

theorem DF.find?_of_not_hasCol {df : DF} {c : String} (h : df.hasCol c = false) :
    df.cols.find? (fun p => p.1 == c) = none := by
  rw [List.find?_eq_none]
  intro p hp
  simpa using (DF.hasCol_false_iff df c).mp h p hp

theorem DF.getCol_length {df : DF} {c : String} (hwf : df.WF)
    (h : df.hasCol c = true) : (df.getCol c).length = df.nrows := by
  obtain ⟨vs, hvs⟩ := DF.find?_of_hasCol h
  have hmem := List.mem_of_find?_eq_some hvs
  have := hwf _ hmem
  simp only [DF.getCol, hvs]
  exact this

theorem DF.nrows_setCol (df : DF) (c : String) (v : List Value) :
    (df.setCol c v).nrows = df.nrows := by
  unfold DF.setCol
  split <;> rfl



theorem setEntry_fst_pred (c c' : String) (v : List Value) :
    ((fun p : String × List Value => p.1 == c') ∘
      (fun p => if p.1 == c then (p.1, v) else p)) = fun p => p.1 == c' := by
  funext p
  by_cases hc : p.1 = c <;> simp [hc]

theorem find?_map_setEntry (l : List (String × List Value)) (c : String)
    (v : List Value) :
    (l.map (fun p => if p.1 == c then (p.1, v) else p)).find?
        (fun p => p.1 == c)
      = (l.find? (fun p => p.1 == c)).map (fun p => (p.1, v)) := by
  rw [List.find?_map, setEntry_fst_pred]
  cases hf : l.find? (fun p => p.1 == c) with
  | none => rfl
  | some q =>
    have hq : q.1 = c := by simpa using List.find?_some hf
    simp [hq]

theorem find?_map_setEntry_ne (l : List (String × List Value)) (c c' : String)
    (v : List Value) (h : c' ≠ c) :
    (l.map (fun p => if p.1 == c then (p.1, v) else p)).find?
        (fun p => p.1 == c')
      = l.find? (fun p => p.1 == c') := by
  rw [List.find?_map, setEntry_fst_pred]
  cases hf : l.find? (fun p => p.1 == c') with
  | none => rfl
  | some q =>
    have hq : q.1 = c' := by simpa using List.find?_some hf
    have hqc : ¬ q.1 = c := fun hh => h (hq.symm.trans hh)
    simp [hqc]

theorem contains_append_singleton {l : List String} {a b : String}
    (h : b ≠ a) : (l ++ [a]).contains b = l.contains b := by
  apply Bool.eq_iff_iff.mpr
  simp only [List.contains, List.elem_iff, List.mem_append, List.mem_singleton]
  exact ⟨fun hm => hm.resolve_right h, Or.inl⟩

theorem contains_append_singleton_self (l : List String) (a : String) :
    (l ++ [a]).contains a = true := by
  simp only [List.contains, List.elem_iff, List.mem_append, List.mem_singleton]
  exact Or.inr trivial

theorem DF.colNames_setCol_of_hasCol {df : DF} {c : String} (v : List Value)
    (h : df.hasCol c = true) : (df.setCol c v).colNames = df.colNames := by
  unfold DF.setCol
  rw [if_pos h]
  simp only [DF.colNames, List.map_map]
  apply List.map_congr_left
  intro p hp
  by_cases hc : p.1 = c <;> simp [hc, Function.comp]

theorem DF.colNames_setCol_of_not_hasCol {df : DF} {c : String} (v : List Value)
    (h : df.hasCol c = false) : (df.setCol c v).colNames = df.colNames ++ [c] := by
  unfold DF.setCol
  rw [if_neg (by simp [h])]
  simp [DF.colNames]

theorem DF.hasCol_setCol_self (df : DF) (c : String) (v : List Value) :
    (df.setCol c v).hasCol c = true := by
  by_cases hc : df.hasCol c
  · unfold DF.hasCol
    rw [DF.colNames_setCol_of_hasCol v hc]
    exact hc
  · unfold DF.hasCol
    rw [DF.colNames_setCol_of_not_hasCol v (by simpa using hc)]
    exact contains_append_singleton_self _ _

theorem DF.hasCol_setCol_ne (df : DF) {c c' : String} (v : List Value)
    (h : c' ≠ c) : (df.setCol c v).hasCol c' = df.hasCol c' := by
  by_cases hc : df.hasCol c
  · unfold DF.hasCol
    rw [DF.colNames_setCol_of_hasCol v hc]
  · unfold DF.hasCol
    rw [DF.colNames_setCol_of_not_hasCol v (by simpa using hc)]
    exact contains_append_singleton h

theorem DF.getCol_setCol_self (df : DF) (c : String) (v : List Value) :
    (df.setCol c v).getCol c = v := by
  unfold DF.setCol
  by_cases h : df.hasCol c
  · obtain ⟨vs, hvs⟩ := DF.find?_of_hasCol h
    simp only [if_pos h, DF.getCol, find?_map_setEntry, hvs, Option.map_some']
  · have hn := DF.find?_of_not_hasCol (by simpa using h)
    simp only [if_neg h, DF.getCol, List.find?_append, hn, Option.none_or]
    rw [List.find?_cons_of_pos _ (by simp)]

theorem DF.getCol_setCol_ne (df : DF) {c c' : String} (v : List Value)
    (h : c' ≠ c) : (df.setCol c v).getCol c' = df.getCol c' := by
  unfold DF.setCol
  by_cases hc : df.hasCol c
  · simp only [if_pos hc, DF.getCol, find?_map_setEntry_ne _ _ _ _ h]
  · simp only [if_neg hc, DF.getCol, List.find?_append]
    rw [List.find?_cons_of_neg _ (by simpa using fun hh : c = c' => h hh.symm),
      List.find?_nil, Option.or_none]

theorem find?_filter_ne (l : List (String × List Value)) (c c' : String)
    (h : c' ≠ c) :
    (l.filter (fun p => !(p.1 == c))).find? (fun p => p.1 == c')
      = l.find? (fun p => p.1 == c') := by
  induction l with
  | nil => rfl
  | cons p l ih =>
    by_cases hc : p.1 = c
    · have hc' : ¬ p.1 = c' := fun hh => h (hh.symm.trans hc)
      rw [List.filter_cons_of_neg (by simp [hc]),
        List.find?_cons_of_neg _ (by simpa using hc')]
      exact ih
    · by_cases hc' : p.1 = c'
      · rw [List.filter_cons_of_pos (by simp [hc]),
          List.find?_cons_of_pos _ (by simpa using hc'),
          List.find?_cons_of_pos _ (by simpa using hc')]
      · rw [List.filter_cons_of_pos (by simp [hc]),
          List.find?_cons_of_neg _ (by simpa using hc'),
          List.find?_cons_of_neg _ (by simpa using hc')]
        exact ih

theorem DF.nrows_dropCol (df : DF) (c : String) :
    (df.dropCol c).nrows = df.nrows := rfl

theorem DF.getCol_dropCol_ne (df : DF) {c c' : String} (h : c' ≠ c) :
    (df.dropCol c).getCol c' = df.getCol c' := by
  unfold DF.dropCol
  simp only [DF.getCol, find?_filter_ne _ _ _ h]

theorem DF.hasCol_dropCol_ne (df : DF) {c c' : String} (h : c' ≠ c) :
    (df.dropCol c).hasCol c' = df.hasCol c' := by
  apply Bool.eq_iff_iff.mpr
  rw [DF.hasCol_true_iff, DF.hasCol_true_iff]
  constructor
  · rintro ⟨p, hp, e⟩
    exact ⟨p, (List.mem_filter.mp hp).1, e⟩
  · rintro ⟨p, hp, e⟩
    exact ⟨p, List.mem_filter.mpr ⟨hp, by simp [e, h]⟩, e⟩

theorem DF.hasCol_dropCol_self (df : DF) (c : String) :
    (df.dropCol c).hasCol c = false := by
  rw [DF.hasCol_false_iff]
  intro p hp
  have := (List.mem_filter.mp hp).2
  simpa using this

theorem nrows_fillCol (df : DF) (c : String) :
    (fillCol df c).nrows = df.nrows := by
  unfold fillCol
  split
  · rfl
  · exact DF.nrows_setCol df c _

theorem hasCol_fillCol_self (df : DF) (c : String) :
    (fillCol df c).hasCol c = true := by
  unfold fillCol
  by_cases hc : df.hasCol c
  · rwa [if_pos hc]
  · rw [if_neg hc]
    exact DF.hasCol_setCol_self df c _

theorem hasCol_fillCol_of_hasCol {df : DF} {c' : String} (c : String)
    (h : df.hasCol c' = true) : (fillCol df c).hasCol c' = true := by
  unfold fillCol
  by_cases hc : df.hasCol c
  · rwa [if_pos hc]
  · rw [if_neg hc]
    by_cases hcc : c' = c
    · subst hcc
      exact DF.hasCol_setCol_self df c' _
    · rw [DF.hasCol_setCol_ne df _ hcc]
      exact h

theorem getCol_fillCol_of_hasCol {df : DF} {c' : String} (c : String)
    (h : df.hasCol c' = true) : (fillCol df c).getCol c' = df.getCol c' := by
  unfold fillCol
  by_cases hc : df.hasCol c
  · rw [if_pos hc]
  · rw [if_neg hc]
    have hcc : c' ≠ c := fun hh => hc (hh ▸ h)
    exact DF.getCol_setCol_ne df _ hcc

theorem nrows_foldl_fillCol (cs : List String) (df : DF) :
    (cs.foldl fillCol df).nrows = df.nrows := by
  induction cs generalizing df with
  | nil => rfl
  | cons c cs ih => rw [List.foldl_cons, ih, nrows_fillCol]

theorem hasCol_foldl_fillCol_of_hasCol {df : DF} {c' : String}
    (cs : List String) (h : df.hasCol c' = true) :
    (cs.foldl fillCol df).hasCol c' = true := by
  induction cs generalizing df with
  | nil => exact h
  | cons c cs ih =>
    rw [List.foldl_cons]
    exact ih (hasCol_fillCol_of_hasCol c h)

theorem getCol_foldl_fillCol_of_hasCol {df : DF} {c' : String}
    (cs : List String) (h : df.hasCol c' = true) :
    (cs.foldl fillCol df).getCol c' = df.getCol c' := by
  induction cs generalizing df with
  | nil => rfl
  | cons c cs ih =>
    rw [List.foldl_cons, ih (hasCol_fillCol_of_hasCol c h),
      getCol_fillCol_of_hasCol c h]

theorem hasCol_foldl_fillCol_of_mem {c : String} {cs : List String}
    (df : DF) (h : c ∈ cs) : (cs.foldl fillCol df).hasCol c = true := by
  induction cs generalizing df with
  | nil => cases h
  | cons c0 cs ih =>
    rw [List.foldl_cons]
    rcases List.mem_cons.mp h with rfl | hm
    · exact hasCol_foldl_fillCol_of_hasCol cs (hasCol_fillCol_self df c)
    · exact ih (fillCol df c0) hm

theorem getCol_foldl_fillCol_of_not_hasCol {c : String} {cs : List String}
    {df : DF} (hnd : cs.Nodup) (hmem : c ∈ cs) (h : df.hasCol c = false) :
    (cs.foldl fillCol df).getCol c
      = List.replicate df.nrows (Value.str "") := by
  induction cs generalizing df with
  | nil => cases hmem
  | cons c0 cs ih =>
    rw [List.foldl_cons]
    rcases List.mem_cons.mp hmem with rfl | hm
    · have h1 : fillCol df c = df.setCol c (List.replicate df.nrows (Value.str "")) := by
        unfold fillCol
        rw [if_neg (by simp [h])]
      rw [h1, getCol_foldl_fillCol_of_hasCol cs (DF.hasCol_setCol_self df c _),
        DF.getCol_setCol_self]
    · have hne : c ≠ c0 := fun hh => (List.nodup_cons.mp hnd).1 (hh ▸ hm)
      have h2 : (fillCol df c0).hasCol c = false := by
        unfold fillCol
        by_cases hc0 : df.hasCol c0
        · rwa [if_pos hc0]
        · rw [if_neg hc0, DF.hasCol_setCol_ne df _ hne]
          exact h
      rw [ih (List.nodup_cons.mp hnd).2 hm h2, nrows_fillCol]

theorem foldl_fillCol_of_all_hasCol {cs : List String} {df : DF}
    (h : ∀ c ∈ cs, df.hasCol c = true) : cs.foldl fillCol df = df := by
  induction cs with
  | nil => rfl
  | cons c cs ih =>
    rw [List.foldl_cons]
    have h1 : fillCol df c = df := by
      unfold fillCol
      rw [if_pos (h c (List.mem_cons_self c cs))]
    rw [h1]
    exact ih (fun c' hc' => h c' (List.mem_cons_of_mem c hc'))

theorem DF.nrows_select (df : DF) (cs : List String) :
    (df.select cs).nrows = df.nrows := rfl

theorem DF.colNames_select (df : DF) (cs : List String) :
    (df.select cs).colNames = cs := by
  simp only [DF.select, DF.colNames, List.map_map]
  calc cs.map (Prod.fst ∘ fun c => (c, df.getCol c))
      = cs.map id := List.map_congr_left (fun c _ => rfl)
    _ = cs := List.map_id cs

theorem DF.getCol_select_of_mem {df : DF} {c : String} {cs : List String}
    (h : c ∈ cs) : (df.select cs).getCol c = df.getCol c := by
  induction cs with
  | nil => cases h
  | cons c0 cs ih =>
    simp only [DF.select, List.map_cons, DF.getCol]
    by_cases hc : c0 = c
    · subst hc
      rw [List.find?_cons_of_pos _ (by simp)]
    · rw [List.find?_cons_of_neg _ (by simpa using hc)]
      rcases List.mem_cons.mp h with rfl | hm
      · exact absurd rfl hc
      · simpa [DF.select, DF.getCol] using ih hm

theorem DF.select_select (df : DF) (cs : List String) :
    (df.select cs).select cs = df.select cs := by
  have h1 : cs.map (fun c => (c, (df.select cs).getCol c))
      = cs.map (fun c => (c, df.getCol c)) :=
    List.map_congr_left (fun c hc => by rw [DF.getCol_select_of_mem hc])
  show ({ nrows := (df.select cs).nrows,
          cols := cs.map (fun c => (c, (df.select cs).getCol c)) } : DF) = _
  rw [h1]
  rfl

theorem required_cols_nodup : required_cols.Nodup := by decide

theorem eventDate_not_mem_required : "Event Date" ∉ required_cols := by decide

theorem eventStart_mem_required : "Event Start" ∈ required_cols := by decide

theorem eventStart_ne_eventDate : "Event Start" ≠ "Event Date" := by decide

theorem nrows_migrate (parse : String → Option Timestamp) (df : DF) :
    (migrate parse df).nrows = df.nrows := by
  unfold migrate
  split
  · exact DF.nrows_setCol df _ _
  · split
    · exact DF.nrows_setCol df _ _
    · rfl

theorem migrate_of_no_legacy (parse : String → Option Timestamp) {df : DF}
    (h : df.hasCol "Event Date" = false) : migrate parse df = df := by
  unfold migrate
  rw [if_neg (by simp [h]), if_neg (by simp [h])]

theorem getCol_migrate_legacy_only (parse : String → Option Timestamp)
    {df : DF} (h1 : df.hasCol "Event Start" = false)
    (h2 : df.hasCol "Event Date" = true) :
    (migrate parse df).getCol "Event Start"
      = (df.getCol "Event Date").map (to_datetime parse) := by
  unfold migrate
  rw [if_pos (by simp [h1, h2])]
  exact DF.getCol_setCol_self df _ _

theorem getCol_migrate_both (parse : String → Option Timestamp) {df : DF}
    (h1 : df.hasCol "Event Start" = true)
    (h2 : df.hasCol "Event Date" = true) :
    (migrate parse df).getCol "Event Start"
      = ((df.getCol "Event Start").zip (df.getCol "Event Date")).map
          (fun p => to_datetime parse (combine_first p.1 p.2)) := by
  unfold migrate
  rw [if_neg (by simp [h1]), if_pos (by simp [h1, h2])]
  exact DF.getCol_setCol_self df _ _

theorem hasCol_migrate_ES_of_legacy (parse : String → Option Timestamp)
    {df : DF} (h2 : df.hasCol "Event Date" = true) :
    (migrate parse df).hasCol "Event Start" = true := by
  unfold migrate
  by_cases h1 : df.hasCol "Event Start"
  · rw [if_neg (by simp [h1]), if_pos (by simp [h1, h2])]
    exact DF.hasCol_setCol_self df _ _
  · rw [if_pos (by simp [Bool.eq_false_iff.mpr h1, h2])]
    exact DF.hasCol_setCol_self df _ _

theorem hasCol_migrate_ne (parse : String → Option Timestamp) (df : DF)
    {c : String} (h : c ≠ "Event Start") :
    (migrate parse df).hasCol c = df.hasCol c := by
  unfold migrate
  split
  · exact DF.hasCol_setCol_ne df _ h
  · split
    · exact DF.hasCol_setCol_ne df _ h
    · rfl

theorem getCol_migrate_ne (parse : String → Option Timestamp) (df : DF)
    {c : String} (h : c ≠ "Event Start") :
    (migrate parse df).getCol c = df.getCol c := by
  unfold migrate
  split
  · exact DF.getCol_setCol_ne df _ h
  · split
    · exact DF.getCol_setCol_ne df _ h
    · rfl

theorem nrows_dropLegacy (df : DF) : (dropLegacy df).nrows = df.nrows := by
  unfold dropLegacy
  split
  · rfl
  · rfl

theorem hasCol_dropLegacy_ED (df : DF) :
    (dropLegacy df).hasCol "Event Date" = false := by
  unfold dropLegacy
  by_cases h : df.hasCol "Event Date"
  · rw [if_pos h]
    exact DF.hasCol_dropCol_self df _
  · rw [if_neg h]
    simpa using h

theorem hasCol_dropLegacy_ne (df : DF) {c : String} (h : c ≠ "Event Date") :
    (dropLegacy df).hasCol c = df.hasCol c := by
  unfold dropLegacy
  split
  · exact DF.hasCol_dropCol_ne df h
  · rfl

theorem getCol_dropLegacy_ne (df : DF) {c : String} (h : c ≠ "Event Date") :
    (dropLegacy df).getCol c = df.getCol c := by
  unfold dropLegacy
  split
  · exact DF.getCol_dropCol_ne df h
  · rfl

theorem nrows_load_some (parse : String → Option Timestamp) (df : DF) :
    (load_data parse (some df)).nrows = df.nrows := by
  unfold load_data fillRequired
  rw [DF.nrows_select, nrows_foldl_fillCol, nrows_dropLegacy, nrows_migrate]

theorem colNames_load_some (parse : String → Option Timestamp) (df : DF) :
    (load_data parse (some df)).colNames = required_cols := by
  unfold load_data
  exact DF.colNames_select _ _

theorem getCol_load_ES_eq_migrate (parse : String → Option Timestamp)
    {df : DF} (h : (migrate parse df).hasCol "Event Start" = true) :
    (load_data parse (some df)).getCol "Event Start"
      = (migrate parse df).getCol "Event Start" := by
  unfold load_data fillRequired
  rw [DF.getCol_select_of_mem eventStart_mem_required,
    getCol_foldl_fillCol_of_hasCol _
      (by rw [hasCol_dropLegacy_ne _ eventStart_ne_eventDate]; exact h),
    getCol_dropLegacy_ne _ eventStart_ne_eventDate]

theorem getCol_load_other (parse : String → Option Timestamp) {df : DF}
    {c : String} (hmem : c ∈ required_cols) (hES : c ≠ "Event Start")
    (hc : df.hasCol c = true) :
    (load_data parse (some df)).getCol c = df.getCol c := by
  have hED : c ≠ "Event Date" := fun hh => eventDate_not_mem_required (hh ▸ hmem)
  unfold load_data fillRequired
  rw [DF.getCol_select_of_mem hmem,
    getCol_foldl_fillCol_of_hasCol _
      (by rw [hasCol_dropLegacy_ne _ hED, hasCol_migrate_ne parse df hES]; exact hc),
    getCol_dropLegacy_ne _ hED, getCol_migrate_ne parse df hES]

theorem getCol_load_missing (parse : String → Option Timestamp) {df : DF}
    {c : String} (hmem : c ∈ required_cols)
    (h : (dropLegacy (migrate parse df)).hasCol c = false) :
    (load_data parse (some df)).getCol c
      = List.replicate df.nrows (Value.str "") := by
  unfold load_data fillRequired
  rw [DF.getCol_select_of_mem hmem,
    getCol_foldl_fillCol_of_not_hasCol required_cols_nodup hmem h,
    nrows_dropLegacy, nrows_migrate]

theorem load_some_eq (parse : String → Option Timestamp) (df : DF) :
    load_data parse (some df)
      = (fillRequired (dropLegacy (migrate parse df))).select required_cols := rfl

theorem load_some_of_canonical (parse : String → Option Timestamp) {d : DF}
    (h3 : ∀ c ∈ required_cols, d.hasCol c = true)
    (hED : d.hasCol "Event Date" = false) :
    load_data parse (some d) = d.select required_cols := by
  rw [load_some_eq]
  unfold fillRequired
  rw [migrate_of_no_legacy parse hED]
  have hd : dropLegacy d = d := by
    unfold dropLegacy
    rw [if_neg (by simp [hED])]
  rw [hd, foldl_fillCol_of_all_hasCol h3]

theorem load_ES_cell_legacy_only (parse : String → Option Timestamp)
    {df : DF} (hWF : df.WF) (h1 : df.hasCol "Event Start" = false)
    (h2 : df.hasCol "Event Date" = true) (i : Nat) (hi : i < df.nrows) :
    ((load_data parse (some df)).getCol "Event Start")[i]?
      = some (to_datetime parse ((df.getCol "Event Date").getD i Value.null)) := by
  rw [getCol_load_ES_eq_migrate parse (hasCol_migrate_ES_of_legacy parse h2),
    getCol_migrate_legacy_only parse h1 h2]
  have hlen : (df.getCol "Event Date").length = df.nrows := DF.getCol_length hWF h2
  rw [List.getElem?_map, List.getElem?_eq_getElem (by rw [hlen]; exact hi),
    List.getD_eq_getElem _ _ (by rw [hlen]; exact hi)]
  rfl

theorem load_ES_cell_both (parse : String → Option Timestamp) {df : DF}
    (hWF : df.WF) (h1 : df.hasCol "Event Start" = true)
    (h2 : df.hasCol "Event Date" = true) (i : Nat) (hi : i < df.nrows) :
    ((load_data parse (some df)).getCol "Event Start")[i]?
      = some (to_datetime parse
          (combine_first ((df.getCol "Event Start").getD i Value.null)
            ((df.getCol "Event Date").getD i Value.null))) := by
  rw [getCol_load_ES_eq_migrate parse (hasCol_migrate_ES_of_legacy parse h2),
    getCol_migrate_both parse h1 h2]
  have ha : (df.getCol "Event Start").length = df.nrows := DF.getCol_length hWF h1
  have hb : (df.getCol "Event Date").length = df.nrows := DF.getCol_length hWF h2
  have hzip : ((df.getCol "Event Start").zip (df.getCol "Event Date"))[i]?
      = some ((df.getCol "Event Start").getD i Value.null,
              (df.getCol "Event Date").getD i Value.null) := by
    apply List.getElem?_zip_eq_some.mpr
    constructor
    · show (df.getCol "Event Start")[i]?
        = some ((df.getCol "Event Start").getD i Value.null)
      rw [List.getElem?_eq_getElem (by rw [ha]; exact hi),
        List.getD_eq_getElem _ _ (by rw [ha]; exact hi)]
    · show (df.getCol "Event Date")[i]?
        = some ((df.getCol "Event Date").getD i Value.null)
      rw [List.getElem?_eq_getElem (by rw [hb]; exact hi),
        List.getD_eq_getElem _ _ (by rw [hb]; exact hi)]
  rw [List.getElem?_map, hzip]
  rfl

/-- C6: when the configured storage location does not exist, `load_data`
returns the empty table with exactly the canonical column set and zero
rows, rather than failing. -/
theorem load_data_missing_storage_empty (parse : String → Option Timestamp) :
    load_data parse none = emptyDF
    ∧ (load_data parse none).colNames = required_cols
    ∧ (load_data parse none).nrows = 0
    ∧ (load_data parse none).rows = [] :=
  ⟨rfl, rfl, rfl, rfl⟩

/-- C7: loading a table already in the unified-timestamp schema (an
"Event Start" column and no legacy "Event Date" column) leaves every
timestamp value unchanged. -/
theorem load_data_unified_schema_idempotent (parse : String → Option Timestamp)
    (df : DF) (h1 : df.hasCol "Event Start" = true)
    (h2 : df.hasCol "Event Date" = false) :
    (load_data parse (some df)).getCol "Event Start"
      = df.getCol "Event Start" := by
  have hm : migrate parse df = df := migrate_of_no_legacy parse h2
  rw [getCol_load_ES_eq_migrate parse (by rw [hm]; exact h1), hm]

/-- Witness for C7 at a concrete unified-schema table. -/
theorem load_data_unified_schema_idempotent_witness :
    (load_data sampleParse (some sampleUnifiedDF)).getCol "Event Start"
      = sampleUnifiedDF.getCol "Event Start" :=
  load_data_unified_schema_idempotent sampleParse sampleUnifiedDF
    (by decide) (by decide)

/-- C4: a second load-save round trip is a no-op — loading what `save_data`
persisted from a load yields the very same table, so the storage contents
after the first and second `save_data(load_data())` coincide. -/
theorem save_load_roundtrip (parse : String → Option Timestamp)
    (file : Option DF) :
    load_data parse (save_data (load_data parse file)) = load_data parse file
    ∧ save_data (load_data parse (save_data (load_data parse file)))
        = save_data (load_data parse file) := by
  have key : load_data parse (save_data (load_data parse file))
      = load_data parse file := by
    cases file with
    | none =>
      show load_data parse (some emptyDF) = emptyDF
      rw [load_some_of_canonical parse (by decide) (by decide)]
      decide
    | some df =>
      rw [load_some_eq parse df]
      have h3 : ∀ c ∈ required_cols,
          ((fillRequired (dropLegacy (migrate parse df))).select
            required_cols).hasCol c = true := by
        intro c hc
        unfold DF.hasCol
        rw [DF.colNames_select]
        exact List.elem_eq_true_of_mem hc
      have hED : ((fillRequired (dropLegacy (migrate parse df))).select
          required_cols).hasCol "Event Date" = false := by
        unfold DF.hasCol
        rw [DF.colNames_select]
        decide
      show load_data parse
          (some ((fillRequired (dropLegacy (migrate parse df))).select
            required_cols)) = _
      rw [load_some_of_canonical parse h3 hED, DF.select_select]
  exact ⟨key, by rw [key]⟩

/-- C2: the legacy-date migration of `load_data`: with only the legacy
"Event Date" column, every row's "Event Start" is the legacy value parsed
(coerced) as a timestamp; with both columns, each row's result is the
parse-coercion of the "Event Start" value back-filled from "Event Date"
— an already-present timestamp wins, a null "Event Start" is back-filled
from the legacy value; and "Event Date" never appears in the returned
schema. -/
theorem load_data_legacy_migration (parse : String → Option Timestamp)
    (df : DF) (hWF : df.WF) :
    "Event Date" ∉ (load_data parse (some df)).colNames
    ∧ (df.hasCol "Event Start" = false → df.hasCol "Event Date" = true →
        (load_data parse (some df)).getCol "Event Start"
          = (df.getCol "Event Date").map (to_datetime parse))
    ∧ (df.hasCol "Event Start" = true → df.hasCol "Event Date" = true →
        ∀ i, i < df.nrows →
          ((load_data parse (some df)).getCol "Event Start")[i]?
              = some (to_datetime parse
                  (combine_first ((df.getCol "Event Start").getD i Value.null)
                    ((df.getCol "Event Date").getD i Value.null)))
          ∧ (∀ t, (df.getCol "Event Start").getD i Value.null = Value.ts t →
              ((load_data parse (some df)).getCol "Event Start")[i]?
                = some (Value.ts t))
          ∧ ((df.getCol "Event Start").getD i Value.null = Value.null →
              ((load_data parse (some df)).getCol "Event Start")[i]?
                = some (to_datetime parse
                    ((df.getCol "Event Date").getD i Value.null)))) := by
  refine ⟨?_, ?_, ?_⟩
  · rw [colNames_load_some]
    exact eventDate_not_mem_required
  · intro h1 h2
    rw [getCol_load_ES_eq_migrate parse (hasCol_migrate_ES_of_legacy parse h2),
      getCol_migrate_legacy_only parse h1 h2]
  · intro h1 h2 i hi
    have key := load_ES_cell_both parse hWF h1 h2 i hi
    refine ⟨key, ?_, ?_⟩
    · intro t ht
      rw [key, ht]
      rfl
    · intro hnull
      rw [key, hnull]
      rfl

/-- Witness for C2 at a concrete table carrying both date columns. -/
theorem load_data_legacy_migration_witness :
    ((load_data sampleParse (some sampleBothDF)).getCol "Event Start")[0]?
        = some (Value.ts ⟨2024, 3, 1, 0, 0⟩)
    ∧ ((load_data sampleParse (some sampleBothDF)).getCol "Event Start")[1]?
        = some (Value.ts ⟨2025, 1, 2, 10, 0⟩) :=
  ⟨((load_data_legacy_migration sampleParse sampleBothDF (by decide)).2.2
      (by decide) (by decide) 0 (by decide)).2.2 (by decide),
   ((load_data_legacy_migration sampleParse sampleBothDF (by decide)).2.2
      (by decide) (by decide) 1 (by decide)).2.1 ⟨2025, 1, 2, 10, 0⟩ (by decide)⟩

/-- Counterexample to C3 as stated: for a source with only the legacy
"Event Date" column, the canonical "Event Start" column is absent from the
source yet is not filled with the empty string — it is back-filled from
the parsed legacy dates. -/
theorem load_data_missing_column_fill_cex :
    sampleLegacyDF.hasCol "Event Start" = false
    ∧ (load_data sampleParse (some sampleLegacyDF)).getCol "Event Start"
        ≠ List.replicate sampleLegacyDF.nrows (Value.str "")
    ∧ (load_data sampleParse (some sampleLegacyDF)).getCol "Event Start"
        = [Value.ts ⟨2024, 3, 1, 0, 0⟩] := by
  refine ⟨by decide, by decide, by decide⟩

/-- C3 (amended): `load_data` always returns exactly the nine canonical
columns in canonical order, and every canonical column absent from the
source is filled with the empty string in every row — except
"Event Start", which is excluded from the empty-string rule when a legacy
"Event Date" column is present (it is then synthesized from that column
instead). -/
theorem load_data_canonical_columns (parse : String → Option Timestamp)
    (df : DF) (c : String) (hmem : c ∈ required_cols)
    (habsent : df.hasCol c = false)
    (hnb : c = "Event Start" → df.hasCol "Event Date" = false) :
    (load_data parse (some df)).colNames = required_cols
    ∧ (load_data parse (some df)).getCol c
        = List.replicate df.nrows (Value.str "") := by
  refine ⟨colNames_load_some parse df, ?_⟩
  apply getCol_load_missing parse hmem
  by_cases hES : c = "Event Start"
  · subst hES
    have hED := hnb rfl
    rw [hasCol_dropLegacy_ne _ eventStart_ne_eventDate,
      migrate_of_no_legacy parse hED]
    exact habsent
  · have hED : c ≠ "Event Date" := fun hh => eventDate_not_mem_required (hh ▸ hmem)
    rw [hasCol_dropLegacy_ne _ hED, hasCol_migrate_ne parse df hES]
    exact habsent

/-- Witness for the amended C3 at a concrete table lacking "Post Code". -/
theorem load_data_canonical_columns_witness :
    (load_data sampleParse (some sampleUnifiedDF)).colNames = required_cols
    ∧ (load_data sampleParse (some sampleUnifiedDF)).getCol "Post Code"
        = List.replicate 1 (Value.str "") :=
  load_data_canonical_columns sampleParse sampleUnifiedDF "Post Code"
    (by decide) (by decide) (fun h => absurd h (by decide))

/-- Counterexample to C5 as stated: in the unified-only branch (an
"Event Start" column and no legacy column), `load_data` performs no
parsing at all, so an unparseable date string is returned unchanged
rather than as a null timestamp. -/
theorem load_data_unparseable_unified_cex :
    (∀ s, (fun _ : String => (none : Option Timestamp)) s = none)
    ∧ (load_data (fun _ => none) (some sampleUnifiedDF)).getCol "Event Start"
        = [Value.str "x"]
    ∧ Value.str "x" ≠ Value.null :=
  ⟨fun _ => rfl, by decide, by decide⟩

/-- C5 (amended): in the two branches where `load_data` parses dates (the
legacy-only and both-columns schemas), an unparseable value is coerced to
a null timestamp for that row and the load continues — it always returns
a table with the full canonical schema; in the unified-only branch no
parsing happens inside `load_data` (the value passes through unchanged,
and coercion happens later, outside `load_data`). -/
theorem load_data_unparseable_coerced (parse : String → Option Timestamp)
    (df : DF) (hWF : df.WF) :
    (load_data parse (some df)).colNames = required_cols
    ∧ (df.hasCol "Event Start" = false → df.hasCol "Event Date" = true →
        ∀ i s, i < df.nrows →
          (df.getCol "Event Date").getD i Value.null = Value.str s →
          parse s = none →
          ((load_data parse (some df)).getCol "Event Start")[i]?
            = some Value.null)
    ∧ (df.hasCol "Event Start" = true → df.hasCol "Event Date" = true →
        ∀ i s, i < df.nrows →
          combine_first ((df.getCol "Event Start").getD i Value.null)
              ((df.getCol "Event Date").getD i Value.null) = Value.str s →
          parse s = none →
          ((load_data parse (some df)).getCol "Event Start")[i]?
            = some Value.null)
    ∧ (df.hasCol "Event Start" = true → df.hasCol "Event Date" = false →
        (load_data parse (some df)).getCol "Event Start"
          = df.getCol "Event Start") := by
  refine ⟨colNames_load_some parse df, ?_, ?_, ?_⟩
  · intro h1 h2 i s hi hcell hparse
    rw [load_ES_cell_legacy_only parse hWF h1 h2 i hi, hcell]
    simp [to_datetime, hparse]
  · intro h1 h2 i s hi hcell hparse
    rw [load_ES_cell_both parse hWF h1 h2 i hi, hcell]
    simp [to_datetime, hparse]
  · intro h1 h2
    have hm : migrate parse df = df := migrate_of_no_legacy parse h2
    rw [getCol_load_ES_eq_migrate parse (by rw [hm]; exact h1), hm]

/-- Witness for the amended C5: a legacy-only table whose date string no
parse accepts yields a null timestamp in that row. -/
theorem load_data_unparseable_coerced_witness :
    ((load_data (fun _ => none) (some sampleLegacyDF)).getCol
        "Event Start")[0]? = some Value.null :=
  (load_data_unparseable_coerced (fun _ => none) sampleLegacyDF
      (by decide)).2.1 (by decide) (by decide) 0 "2024-03-01" (by decide)
    (by decide) rfl

/-- C1: the guarded save and add handlers mutate persisted storage and
session state exactly when the supplied password equals the configured
secret: with a wrong password the state is returned unchanged and the
failure flag is reported; with the correct password the storage is
overwritten with the saved table. -/
theorem auth_gates_storage_mutation (secret password : String) (edited : DF)
    (s : AppState) (d : PDate) (t : PTime)
    (loc pc sr r2 r3 r4 r5 r6 : String) :
    ((saveChanges secret password edited s).2 = true ↔ password = secret)
    ∧ (password ≠ secret → saveChanges secret password edited s = (s, false))
    ∧ (password = secret →
        saveChanges secret password edited s
          = ({ storage := save_data edited, session := edited }, true))
    ∧ ((addEvent secret password d t loc pc sr r2 r3 r4 r5 r6 edited s).2
          = true ↔ password = secret)
    ∧ (password ≠ secret →
        addEvent secret password d t loc pc sr r2 r3 r4 r5 r6 edited s
          = (s, false))
    ∧ (password = secret →
        (addEvent secret password d t loc pc sr r2 r3 r4 r5 r6 edited s).1.storage
          = save_data (concatRow edited
              (new_row d t loc pc sr r2 r3 r4 r5 r6))) := by
  unfold saveChanges addEvent
  by_cases h : password = secret
  · simp [h]
  · simp [h]

/-- Witness for C1: a wrong password leaves the state untouched and a
matching one persists the edited table. -/
theorem auth_gates_storage_mutation_witness :
    saveChanges "s3cret" "wrong" emptyDF
        { storage := none, session := emptyDF }
      = ({ storage := none, session := emptyDF }, false)
    ∧ saveChanges "s3cret" "s3cret" sampleUnifiedDF
        { storage := none, session := emptyDF }
      = ({ storage := save_data sampleUnifiedDF,
           session := sampleUnifiedDF }, true) :=
  ⟨(auth_gates_storage_mutation "s3cret" "wrong" emptyDF
      { storage := none, session := emptyDF } ⟨2024, 1, 1⟩ ⟨9, 0⟩
      "" "" "" "" "" "" "" "").2.1 (by decide),
   (auth_gates_storage_mutation "s3cret" "s3cret" sampleUnifiedDF
      { storage := none, session := emptyDF } ⟨2024, 1, 1⟩ ⟨9, 0⟩
      "" "" "" "" "" "" "" "").2.2.1 rfl⟩

/-- C8: the generated document's table always holds one header row (the
column names) followed by one row per record — N + 1 rows for N records —
and for an empty table it still holds the title and the header row only. -/
theorem generate_pdf_row_count (df : DF) :
    (generate_pdf df).table_data.length = df.rows.length + 1
    ∧ df.rows.length = df.nrows
    ∧ (generate_pdf df).table_data.head? = some df.colNames
    ∧ (generate_pdf df).title = "WRPF UK Referee Planner"
    ∧ (df.nrows = 0 → (generate_pdf df).table_data = [df.colNames]) := by
  refine ⟨?_, ?_, rfl, rfl, ?_⟩
  · simp [generate_pdf]
  · simp [DF.rows]
  · intro h
    simp [generate_pdf, DF.rows, h]

/-- Witness for C8 at the empty table. -/
theorem generate_pdf_row_count_witness :
    (generate_pdf emptyDF).table_data = [emptyDF.colNames] :=
  (generate_pdf_row_count emptyDF).2.2.2.2 rfl

/-- C9: every cell of every record row of the generated document is the
`format_cell` rendering of the corresponding table value: a timestamp
renders as zero-padded "DD/MM/YYYY HH:MM", a null renders as the empty
string, and any other value renders as its string representation. -/
theorem generate_pdf_cell_formatting (df : DF) (i j : Nat)
    (r : List Value) (v : Value) (hr : df.rows[i]? = some r)
    (hv : r[j]? = some v) :
    ((generate_pdf df).table_data[i + 1]?.bind (fun row => row[j]?))
        = some (format_cell v)
    ∧ (∀ ts, format_cell (Value.ts ts)
        = pad2 ts.day ++ "/" ++ pad2 ts.month ++ "/" ++ pad4 ts.year ++ " "
          ++ pad2 ts.hour ++ ":" ++ pad2 ts.minute)
    ∧ format_cell Value.null = ""
    ∧ (∀ s, format_cell (Value.str s) = s) := by
  refine ⟨?_, fun _ => rfl, rfl, fun _ => rfl⟩
  simp [generate_pdf, hr, hv]

/-- Witness for C9 at a concrete table: a null timestamp cell renders as
the empty string and a timestamp cell as its padded date-time string. -/
theorem generate_pdf_cell_formatting_witness :
    ((generate_pdf sampleBothDF).table_data[1]?.bind (fun row => row[0]?))
      = some "" :=
  (generate_pdf_cell_formatting sampleBothDF 0 0
      [Value.null, Value.str "2024-03-01"] Value.null
      (by decide) (by decide)).1

theorem DF.colNames_append_col (df : DF) (g : String → Value) :
    (DF.mk (df.nrows + 1)
        (df.cols.map (fun p => (p.1, p.2 ++ [g p.1])))).colNames
      = df.colNames := by
  unfold DF.colNames
  show (df.cols.map (fun p => (p.1, p.2 ++ [g p.1]))).map Prod.fst
    = df.cols.map Prod.fst
  rw [List.map_map]
  rfl

theorem DF.rows_append_col (df : DF) (g : String → Value) (hWF : df.WF) :
    (DF.mk (df.nrows + 1)
        (df.cols.map (fun p => (p.1, p.2 ++ [g p.1])))).rows
      = df.rows ++ [df.colNames.map g] := by
  unfold DF.rows
  show (List.range (df.nrows + 1)).map
      (DF.row (DF.mk (df.nrows + 1)
        (df.cols.map (fun p => (p.1, p.2 ++ [g p.1])))))
    = (List.range df.nrows).map df.row ++ [df.colNames.map g]
  rw [List.range_succ, List.map_append]
  congr 1
  · apply List.map_congr_left
    intro i hi
    have hi' := List.mem_range.mp hi
    unfold DF.row
    rw [List.map_map]
    apply List.map_congr_left
    intro p hp
    show (p.2 ++ [g p.1]).getD i Value.null = p.2.getD i Value.null
    exact List.getD_append _ _ _ _ (by rw [hWF p hp]; exact hi')
  · rw [List.map_cons, List.map_nil]
    congr 1
    unfold DF.row
    rw [List.map_map]
    have hlast : ∀ p ∈ df.cols,
        ((fun p : String × List Value => p.2.getD df.nrows Value.null) ∘
          (fun p : String × List Value => (p.1, p.2 ++ [g p.1]))) p
          = g p.1 := by
      intro p hp
      show (p.2 ++ [g p.1]).getD df.nrows Value.null = g p.1
      rw [List.getD_append_right _ _ _ _ (by rw [hWF p hp]), hWF p hp,
        Nat.sub_self]
      rfl
    rw [List.map_congr_left hlast]
    unfold DF.colNames
    rw [List.map_map]
    rfl

/-- C10: a record created through the add-event form (correct password)
carries a non-null "Event Start" timestamp equal to the combination of the
selected date and time, and is appended as the last row of the edited
table, leaving all prior rows and their order unchanged; the result is
both persisted and promoted to the session state. -/
theorem addEvent_appends_row (secret : String) (d : PDate) (t : PTime)
    (loc pc sr r2 r3 r4 r5 r6 : String) (edited : DF) (s : AppState)
    (hWF : edited.WF) (hcols : edited.colNames = required_cols) :
    (addEvent secret secret d t loc pc sr r2 r3 r4 r5 r6 edited s).1.session.rows
        = edited.rows
          ++ [[Value.ts (datetime_combine d t), Value.str loc, Value.str pc,
               Value.str sr, Value.str r2, Value.str r3, Value.str r4,
               Value.str r5, Value.str r6]]
    ∧ (addEvent secret secret d t loc pc sr r2 r3 r4 r5 r6
          edited s).1.session.colNames = required_cols
    ∧ Value.ts (datetime_combine d t) ≠ Value.null
    ∧ (addEvent secret secret d t loc pc sr r2 r3 r4 r5 r6 edited s).1.storage
        = some ((addEvent secret secret d t loc pc sr r2 r3 r4 r5 r6
            edited s).1.session) := by
  have hsession : (addEvent secret secret d t loc pc sr r2 r3 r4 r5 r6
      edited s).1.session
        = concatRow edited (new_row d t loc pc sr r2 r3 r4 r5 r6) := by
    unfold addEvent
    rw [if_pos (by simp)]
  have hstorage : (addEvent secret secret d t loc pc sr r2 r3 r4 r5 r6
      edited s).1.storage
        = some (concatRow edited (new_row d t loc pc sr r2 r3 r4 r5 r6)) := by
    unfold addEvent
    rw [if_pos (by simp)]
    rfl
  have hfilter : (new_row d t loc pc sr r2 r3 r4 r5 r6).filter
      (fun q => !(edited.colNames.contains q.1)) = [] := by
    rw [hcols]
    rfl
  have hconcat : concatRow edited (new_row d t loc pc sr r2 r3 r4 r5 r6)
      = DF.mk (edited.nrows + 1)
          (edited.cols.map (fun p =>
            (p.1, p.2 ++ [rowLookup (new_row d t loc pc sr r2 r3 r4 r5 r6)
              p.1]))) := by
    unfold concatRow
    rw [hfilter]
    simp
  refine ⟨?_, ?_, by simp, by rw [hstorage, hsession]⟩
  · rw [hsession, hconcat,
      DF.rows_append_col edited
        (rowLookup (new_row d t loc pc sr r2 r3 r4 r5 r6)) hWF, hcols]
    rfl
  · rw [hsession, hconcat,
      DF.colNames_append_col edited
        (rowLookup (new_row d t loc pc sr r2 r3 r4 r5 r6)), hcols]

/-- Witness for C10: adding an event to the empty table appends exactly
one fully-populated row. -/
theorem addEvent_appends_row_witness :
    (addEvent "pw" "pw" ⟨2024, 5, 6⟩ ⟨9, 0⟩ "L" "P" "a" "b" "c" "x" "y" "z"
        emptyDF { storage := none, session := emptyDF }).1.session.rows
      = emptyDF.rows
        ++ [[Value.ts ⟨2024, 5, 6, 9, 0⟩, Value.str "L", Value.str "P",
             Value.str "a", Value.str "b", Value.str "c", Value.str "x",
             Value.str "y", Value.str "z"]] :=
  (addEvent_appends_row "pw" ⟨2024, 5, 6⟩ ⟨9, 0⟩ "L" "P" "a" "b" "c" "x" "y"
      "z" emptyDF { storage := none, session := emptyDF }
      (by decide) (by decide)).1
